import Mathlib

/-!
Verification of the gemini-go-proxy gateway: a shallow embedding, in Lean, of
the format converter (`pkg/client/converter.go`), the request dispatcher's
retry loop (`pkg/client/client.go`) and the credential manager
(`pkg/auth/auth.go`), together with theorems settling the specification
claims about them.  External collaborators (the HTTP transport, the OAuth2
token-exchange library, base64/JSON codecs, the clock) enter as explicit
parameters describing their observable outcomes; everything written by the
repository itself is translated line by line.
-/

namespace GProxy

/-! ## String and byte helpers -/

/-- Byte-level substring test, mirroring Go's `strings.Contains`:
`strContains hay sub` is true when `sub` occurs contiguously in `hay`. -/
def strContains (hay sub : String) : Bool := decide (sub.data <:+: hay.data)

/-- Concatenation of a list of strings with no separator, mirroring Go's
`strings.Join(parts, "")`. -/
def strConcat : List String → String
  | [] => ""
  | s :: rest => s ++ strConcat rest

/-- Character-wise lowercase of a string (Go's `strings.ToLower`; the
strings compared in this code are ASCII, where the two agree). -/
def strToLower (s : String) : String := String.mk (s.data.map Char.toLower)

/-- Character-wise uppercase of a string (Go's `strings.ToUpper` on ASCII). -/
def strToUpper (s : String) : String := String.mk (s.data.map Char.toUpper)

/-- UTF-8 encoding of a single character, as Go's `[]byte(string)` conversion
produces (one to four bytes, given as natural numbers below 256). -/
def utf8EncodeChar (c : Char) : List Nat :=
  let n := c.toNat
  if n < 128 then [n]
  else if n < 2048 then [192 ||| (n >>> 6), 128 ||| (n &&& 63)]
  else if n < 65536 then [224 ||| (n >>> 12), 128 ||| ((n >>> 6) &&& 63), 128 ||| (n &&& 63)]
  else [240 ||| (n >>> 18), 128 ||| ((n >>> 12) &&& 63), 128 ||| ((n >>> 6) &&& 63), 128 ||| (n &&& 63)]

/-- The UTF-8 bytes of a string: Go's `[]byte(s)`, and the length Go's
`len(s)` measures. -/
def strBytes (s : String) : List Nat := s.data.flatMap utf8EncodeChar

/-- Decoding of a byte slice back into a string, as Go's `string(bs)` does for
ASCII bytes (each byte one character). -/
def bytesToStr (bs : List Nat) : String := String.mk (bs.map Char.ofNat)

/-! ## MD5 (Go standard library `crypto/md5`)

The credential manager hashes short client identifiers with `md5.Sum`; the
digest algorithm (RFC 1321) is embedded below over `Nat` with explicit
`% 2^32` masking. -/

/-- Truncation to an unsigned 32-bit value. -/
def m32 (x : Nat) : Nat := x % 4294967296

/-- Bitwise complement on 32 bits. -/
def bnot32 (x : Nat) : Nat := x ^^^ 4294967295

/-- 32-bit left rotation by `s` places. -/
def rotl32 (x s : Nat) : Nat := ((x <<< s) % 4294967296) ||| (x >>> (32 - s))

/-- The 64 MD5 round constants (integer parts of `2^32 * |sin (i+1)|`). -/
def md5K : List Nat := [0xd76aa478, 0xe8c7b756, 0x242070db, 0xc1bdceee,
 0xf57c0faf, 0x4787c62a, 0xa8304613, 0xfd469501,
 0x698098d8, 0x8b44f7af, 0xffff5bb1, 0x895cd7be,
 0x6b901122, 0xfd987193, 0xa679438e, 0x49b40821,
 0xf61e2562, 0xc040b340, 0x265e5a51, 0xe9b6c7aa,
 0xd62f105d, 0x02441453, 0xd8a1e681, 0xe7d3fbc8,
 0x21e1cde6, 0xc33707d6, 0xf4d50d87, 0x455a14ed,
 0xa9e3e905, 0xfcefa3f8, 0x676f02d9, 0x8d2a4c8a,
 0xfffa3942, 0x8771f681, 0x6d9d6122, 0xfde5380c,
 0xa4beea44, 0x4bdecfa9, 0xf6bb4b60, 0xbebfbc70,
 0x289b7ec6, 0xeaa127fa, 0xd4ef3085, 0x04881d05,
 0xd9d4d039, 0xe6db99e5, 0x1fa27cf8, 0xc4ac5665,
 0xf4292244, 0x432aff97, 0xab9423a7, 0xfc93a039,
 0x655b59c3, 0x8f0ccc92, 0xffeff47d, 0x85845dd1,
 0x6fa87e4f, 0xfe2ce6e0, 0xa3014314, 0x4e0811a1,
 0xf7537e82, 0xbd3af235, 0x2ad7d2bb, 0xeb86d391]

/-- The 64 per-round left-rotation amounts of MD5. -/
def md5S : List Nat := [7,12,17,22,7,12,17,22,7,12,17,22,7,12,17,22,
 5,9,14,20,5,9,14,20,5,9,14,20,5,9,14,20,
 4,11,16,23,4,11,16,23,4,11,16,23,4,11,16,23,
 6,10,15,21,6,10,15,21,6,10,15,21,6,10,15,21]

/-- Little-endian byte decomposition of `n` into `b` bytes. -/
def natToLE : Nat → Nat → List Nat
  | _, 0 => []
  | n, b + 1 => (n % 256) :: natToLE (n / 256) b

/-- MD5 padding: a `0x80` byte, zeros to 56 mod 64, then the bit length as a
64-bit little-endian integer. -/
def md5Pad (msg : List Nat) : List Nat :=
  let len := msg.length
  let padLen := (119 - (len % 64)) % 64
  msg ++ (128 :: List.replicate padLen 0) ++ natToLE (len * 8) 8

/-- The `g`-th little-endian 32-bit word of a 64-byte chunk. -/
def wordAt (chunk : List Nat) (g : Nat) : Nat :=
  chunk.getD (4 * g) 0 + 256 * chunk.getD (4 * g + 1) 0 +
    65536 * chunk.getD (4 * g + 2) 0 + 16777216 * chunk.getD (4 * g + 3) 0

/-- One of the 64 MD5 rounds on state `(a, b, c, d)`. -/
def md5Round (chunk : List Nat) (st : Nat × Nat × Nat × Nat) (i : Nat) :
    Nat × Nat × Nat × Nat :=
  let a := st.1; let b := st.2.1; let c := st.2.2.1; let d := st.2.2.2
  let fg : Nat × Nat :=
    if i < 16 then ((b &&& c) ||| (bnot32 b &&& d), i)
    else if i < 32 then ((d &&& b) ||| (bnot32 d &&& c), (5 * i + 1) % 16)
    else if i < 48 then (b ^^^ c ^^^ d, (3 * i + 5) % 16)
    else (c ^^^ (b ||| bnot32 d), (7 * i) % 16)
  let f := m32 (fg.1 + a + md5K.getD i 0 + wordAt chunk fg.2)
  (d, m32 (b + rotl32 f (md5S.getD i 0)), b, c)

/-- Digest the given number of 64-byte chunks of `bytes`, threading the
four-word state. -/
def md5Chunks : Nat → Nat × Nat × Nat × Nat → List Nat → Nat × Nat × Nat × Nat
  | 0, st, _ => st
  | n + 1, st, bytes =>
    let chunk := bytes.take 64
    let r := (List.range 64).foldl (md5Round chunk) st
    let st' := (m32 (st.1 + r.1), m32 (st.2.1 + r.2.1),
                m32 (st.2.2.1 + r.2.2.1), m32 (st.2.2.2 + r.2.2.2))
    md5Chunks n st' (bytes.drop 64)

/-- The 16-byte MD5 digest of a byte sequence (Go's `md5.Sum`). -/
def md5Bytes (msg : List Nat) : List Nat :=
  let padded := md5Pad msg
  let st := md5Chunks (padded.length / 64)
    (0x67452301, 0xefcdab89, 0x98badcfe, 0x10325476) padded
  natToLE st.1 4 ++ natToLE st.2.1 4 ++ natToLE st.2.2.1 4 ++ natToLE st.2.2.2 4

/-- Lowercase hexadecimal digit for a value below 16. -/
def hexDigitChar (n : Nat) : Char := if n < 10 then Char.ofNat (48 + n) else Char.ofNat (87 + n)

/-- Two lowercase hex characters for one byte. -/
def byteToHex (b : Nat) : List Char := [hexDigitChar (b / 16), hexDigitChar (b % 16)]

/-- Lowercase hex string of the MD5 digest (Go's `hex.EncodeToString(hash[:])`). -/
def md5Hex (msg : List Nat) : String := String.mk ((md5Bytes msg).flatMap byteToHex)

/-! ## Data model (`pkg/models/types.go`, reconstructed from its uses and
`pkg/models/types_test.go`)

Go pointer fields become `Option`; `float64` sampling parameters become `ℚ`
(their ordering is all the code consults); `int` fields become `Int`. -/

/-- One text part of a native (Gemini) turn. -/
structure GeminiPart where
  text : String
deriving DecidableEq

/-- One native conversation turn: a role and its text parts. -/
structure GeminiContent where
  role : String
  parts : List GeminiPart
deriving DecidableEq

/-- The native system-instruction block. -/
structure GeminiSystemInstruction where
  parts : List GeminiPart
deriving DecidableEq

/-- Native sampling parameters (`GeminiGenerationConfig`). -/
structure GeminiGenerationConfig where
  temperature : Option ℚ
  topP : Option ℚ
  topK : Option Int
  maxOutputTokens : Option Int
  stopSequences : List String
deriving DecidableEq

/-- A native (Gemini) request. -/
structure GeminiRequest where
  contents : List GeminiContent
  systemInstruction : Option GeminiSystemInstruction
  generationConfig : Option GeminiGenerationConfig
deriving DecidableEq

/-- One candidate of a native response. -/
structure GeminiCandidate where
  content : GeminiContent
  finishReason : String
deriving DecidableEq

/-- Native usage counters. -/
structure GeminiUsageMetadata where
  promptTokenCount : Int
  candidatesTokenCount : Int
  totalTokenCount : Int
deriving DecidableEq

/-- A native (Gemini) response. -/
structure GeminiResponse where
  candidates : List GeminiCandidate
  usageMetadata : Option GeminiUsageMetadata
deriving DecidableEq

/-- A unified (OpenAI-shaped) chat message. -/
structure OpenAIMessage where
  role : String
  content : String
deriving DecidableEq

/-- A unified chat-completion request. -/
structure OpenAIRequest where
  model : String
  messages : List OpenAIMessage
  temperature : Option ℚ
  topP : Option ℚ
  maxTokens : Option Int
  stop : List String
  stream : Bool
  systemInstruction : Option GeminiSystemInstruction
deriving DecidableEq

/-- Unified usage counters. -/
structure OpenAIUsage where
  promptTokens : Int
  completionTokens : Int
  totalTokens : Int
deriving DecidableEq

/-- One unified response choice (`Message` for full responses, `Delta` for
stream chunks; both are pointers in Go, hence `Option`). -/
structure OpenAIChoice where
  index : Nat
  message : Option OpenAIMessage
  delta : Option OpenAIMessage
  finishReason : Option String
deriving DecidableEq

/-- A unified chat-completion response.  `id` and `created` come from the
clock collaborator (`GenerateRequestID`, `time.Now`), passed in explicitly. -/
structure OpenAIResponse where
  id : String
  object : String
  created : Int
  model : String
  choices : List OpenAIChoice
  usage : Option OpenAIUsage
deriving DecidableEq

/-! ## Format converter (`pkg/client/converter.go`) -/

/-- The loop body of `mergeConsecutiveMessages`: Go folds the tail into a
running `current` turn, appending `"\n" + next.Parts[0].Text` to
`current.Parts[0].Text` when roles coincide and both turns have parts. -/
def mergeFirstText (current next : GeminiContent) : GeminiContent :=
  match current.parts, next.parts with
  | p :: ps, q :: _ => { current with parts := GeminiPart.mk (p.text ++ "\n" ++ q.text) :: ps }
  | _, _ => current

/-- The `for i := 1; ...` loop of `mergeConsecutiveMessages`, carrying the
running `current` turn. -/
def mergeLoop (current : GeminiContent) : List GeminiContent → List GeminiContent
  | [] => [current]
  | next :: rest =>
    if current.role = next.role then
      if 0 < current.parts.length ∧ 0 < next.parts.length then
        mergeLoop (mergeFirstText current next) rest
      else
        mergeLoop current rest
    else
      current :: mergeLoop next rest

/-- `mergeConsecutiveMessages`: merge consecutive same-role turns by
newline-joining their first parts' text; lists shorter than 2 are returned
unchanged. -/
def mergeConsecutiveMessages (contents : List GeminiContent) : List GeminiContent :=
  match contents with
  | [] => []
  | [c] => [c]
  | c :: rest => mergeLoop c rest

/-- `OpenAIToGeminiRequest` on a non-nil request (the Go function returns an
error only for a `nil` pointer, which a Lean value cannot be): extract
system-role messages, append any explicit system-instruction parts, map
user/assistant roles (dropping others), merge consecutive same-role turns and
copy the sampling parameters. -/
def openAIToGeminiRequest (req : OpenAIRequest) : GeminiRequest :=
  let sysSplit := req.messages.partition (fun m => strToLower m.role = "system")
  let systemParts0 := sysSplit.1.map (fun m => GeminiPart.mk m.content)
  let systemParts : List GeminiPart :=
    match req.systemInstruction with
    | some si => if 0 < si.parts.length then systemParts0 ++ si.parts else systemParts0
    | none => systemParts0
  let sysInstr : Option GeminiSystemInstruction :=
    if 0 < systemParts.length then some (GeminiSystemInstruction.mk systemParts) else none
  let conversationContents := sysSplit.2.filterMap (fun m =>
    if strToLower m.role = "user" then some (GeminiContent.mk "user" [GeminiPart.mk m.content])
    else if strToLower m.role = "assistant" then some (GeminiContent.mk "model" [GeminiPart.mk m.content])
    else none)
  { contents := mergeConsecutiveMessages conversationContents,
    systemInstruction := sysInstr,
    generationConfig := some
      { temperature := req.temperature, topP := req.topP, topK := none,
        maxOutputTokens := req.maxTokens, stopSequences := req.stop } }

/-- `convertFinishReason`: map the native finish-reason vocabulary onto the
unified one. -/
def convertFinishReason (geminiReason : String) : String :=
  let r := strToUpper geminiReason
  if r = "STOP" then "stop"
  else if r = "MAX_TOKENS" then "length"
  else if r = "SAFETY" ∨ r = "RECITATION" then "content_filter"
  else "stop"

/-- `GeminiToOpenAIResponse`: a `nil` response is an error; otherwise the
first candidate's non-empty texts are concatenated into a single
assistant-role choice with index 0.  `requestID` and `created` stand for the
clock-derived values of `GenerateRequestID` and `time.Now().Unix()`. -/
def geminiToOpenAIResponse (requestID : String) (created : Int)
    (geminiResp : Option GeminiResponse) (model : String) :
    Except String OpenAIResponse :=
  match geminiResp with
  | none => .error "Gemini response cannot be nil"
  | some resp =>
    let pair : String × Option String :=
      match resp.candidates with
      | [] => ("", none)
      | candidate :: _ =>
        (strConcat ((candidate.content.parts.filter (fun p => ¬ p.text = "")).map
            (fun p => p.text)),
         if ¬ candidate.finishReason = "" then
           some (convertFinishReason candidate.finishReason)
         else none)
    .ok { id := requestID, object := "chat.completion", created := created,
          model := model,
          choices := [{ index := 0,
                        message := some { role := "assistant", content := pair.1 },
                        delta := none, finishReason := pair.2 }],
          usage := resp.usageMetadata.map (fun u =>
            { promptTokens := u.promptTokenCount,
              completionTokens := u.candidatesTokenCount,
              totalTokens := u.totalTokenCount }) }

/-- The first loop of `ValidateAndFixRequest`: assign a role to every turn
whose role is empty — `user` for the first turn or after a `model` turn,
`model` otherwise. -/
def fixRoles (isFirst : Bool) (lastRole : String) : List GeminiContent → List GeminiContent
  | [] => []
  | c :: rest =>
    let role := if c.role = "" then (if isFirst ∨ lastRole = "model" then "user" else "model")
                else c.role
    { c with role := role } :: fixRoles false role rest

/-- The Code Assist pass of `ValidateAndFixRequest`: any still-empty role
becomes `auto`. -/
def codeAssistRoles (contents : List GeminiContent) : List GeminiContent :=
  contents.map (fun c => if c.role = "" then { c with role := "auto" } else c)

/-- The per-model output-token limits table of `ValidateAndFixRequest`. -/
def modelLimits : List (String × Int) :=
  [("gemini-pro", 2048), ("gemini-pro-vision", 2048),
   ("gemini-1.5-pro", 8192), ("gemini-1.5-flash", 8192),
   ("gemini-2.5-pro", 8192), ("gemini-2.5-flash", 8192)]

/-- Go's `modelLimits[modelID]` lookup (keys are distinct, so order is
immaterial). -/
def lookupLimit (modelID : String) : Option Int :=
  (modelLimits.find? (fun p => p.1 = modelID)).map (fun p => p.2)

/-- The `maxOutputTokens` paragraph of `ValidateAndFixRequest`: cap by the
per-model table when the model is known (also filling an absent value), else
default an absent value to 2048. -/
def capMaxTokens (modelID : String) (config : GeminiGenerationConfig) :
    GeminiGenerationConfig :=
  match lookupLimit modelID with
  | some limit =>
    match config.maxOutputTokens with
    | none => { config with maxOutputTokens := some limit }
    | some v => if limit < v then { config with maxOutputTokens := some limit } else config
  | none =>
    match config.maxOutputTokens with
    | none => { config with maxOutputTokens := some 2048 }
    | some _ => config

/-- The `temperature` paragraph of `ValidateAndFixRequest`: clamp into [0,2]
when present. -/
def clampTemperature (config : GeminiGenerationConfig) : GeminiGenerationConfig :=
  match config.temperature with
  | some t => { config with temperature := some (if t < 0 then 0 else if 2 < t then 2 else t) }
  | none => config

/-- The `topP` paragraph of `ValidateAndFixRequest`: clamp into [0,1] when
present. -/
def clampTopP (config : GeminiGenerationConfig) : GeminiGenerationConfig :=
  match config.topP with
  | some p => { config with topP := some (if p < 0 then 0 else if 1 < p then 1 else p) }
  | none => config

/-- The `topK` paragraph of `ValidateAndFixRequest`: raise to at least 1 when
present. -/
def clampTopK (config : GeminiGenerationConfig) : GeminiGenerationConfig :=
  match config.topK with
  | some k => if k < 1 then { config with topK := some 1 } else config
  | none => config

/-- The generation-config part of `ValidateAndFixRequest`, its four
paragraphs in source order (each rebinds Go's `config`). -/
def fixGenerationConfig (modelID : String) (config : GeminiGenerationConfig) :
    GeminiGenerationConfig :=
  clampTopK (clampTopP (clampTemperature (capMaxTokens modelID config)))

/-- `ValidateAndFixRequest`: infer missing roles (plus the Code Assist pass),
then validate and clamp the generation config; a `nil` config is left
untouched.  The structural warnings Go logs change no state and are omitted. -/
def validateAndFixRequest (useCodeAssist : Bool) (modelID : String) (req : GeminiRequest) :
    GeminiRequest :=
  let contents := fixRoles true "" req.contents
  let contents := if useCodeAssist then codeAssistRoles contents else contents
  match req.generationConfig with
  | none => { req with contents := contents }
  | some config =>
    { req with contents := contents,
               generationConfig := some (fixGenerationConfig modelID config) }

/-! ## Request dispatcher (`pkg/client/client.go`)

The HTTP transport is an external collaborator: each attempt's observable
outcome (header-construction failure, transport error, status + body, decode
failure, or a decoded response) is supplied as a function of the attempt
index.  The retry loop itself is translated literally. -/

/-- The transient lexicon of `isNetworkError`. -/
def networkErrors : List String :=
  ["connection refused", "connection reset", "connection timeout",
   "no such host", "network unreachable", "timeout", "dial tcp", "proxy"]

/-- `isNetworkError`: the lowercased error text contains one of the lexicon
entries. -/
def isNetworkError (errStr : String) : Bool :=
  networkErrors.any (fun netErr => strContains (strToLower errStr) netErr)

/-- The observable outcome of one attempt of the non-streaming send path:
`createError` is a failure building the request (before any HTTP traffic),
`transportError` a failed `client.Do`, `httpError` a non-200 status with its
captured body, `decodeError` a 200 whose JSON body fails to decode, and
`success` a decoded 200. -/
inductive AttemptOutcome where
  | createError (msg : String)
  | transportError (msg : String)
  | httpError (status : Nat) (body : String)
  | decodeError (msg : String)
  | success (resp : GeminiResponse)
deriving DecidableEq

/-- What a run of the retry loop did: how many loop iterations ran, how many
proxy rotations were performed, and the final result. -/
structure SendOutcome where
  attempts : Nat
  rotations : Nat
  result : Except String GeminiResponse

/-- Dispatcher configuration: the number of configured proxy routes
(`len(c.proxyURLs)`) and the configured retry bound (`config.MaxRetries`,
an `int` that may be non-positive). -/
structure ClientConfig where
  proxyCount : Nat
  maxRetries : Int
deriving DecidableEq

/-- The `for attempt := 0; attempt < maxRetries` loop of
`sendRequestWithRetry` (non-streaming), with `remaining` iterations left,
counting from attempt index `attempt`, carrying `lastErr` and the rotation
count. -/
def sendLoop (proxyCount maxRetries : Nat) (outcome : Nat → AttemptOutcome) :
    Nat → Nat → String → Nat → SendOutcome
  | 0, attempt, lastErr, rot =>
    { attempts := attempt, rotations := rot,
      result := .error ("request failed after " ++ toString maxRetries ++
        " attempts: " ++ lastErr) }
  | remaining + 1, attempt, lastErr, rot =>
    let rot' := if 0 < attempt ∧ 1 < proxyCount then rot + 1 else rot
    match outcome attempt with
    | .createError msg =>
      sendLoop proxyCount maxRetries outcome remaining (attempt + 1) msg rot'
    | .transportError msg =>
      let e := "request failed: " ++ msg
      if 1 < proxyCount ∧ isNetworkError msg = true then
        sendLoop proxyCount maxRetries outcome remaining (attempt + 1) e rot'
      else
        { attempts := attempt + 1, rotations := rot', result := .error e }
    | .httpError status body =>
      let e := "API request failed with status " ++ toString status ++ ": " ++ body
      if (status = 429 ∨ 500 ≤ status) ∧ 1 < proxyCount then
        sendLoop proxyCount maxRetries outcome remaining (attempt + 1) e rot'
      else
        { attempts := attempt + 1, rotations := rot', result := .error e }
    | .decodeError msg =>
      sendLoop proxyCount maxRetries outcome remaining (attempt + 1)
        ("failed to decode response: " ++ msg) rot'
    | .success resp =>
      { attempts := attempt + 1, rotations := rot', result := .ok resp }

/-- `sendRequestWithRetry` (non-streaming): the retry bound defaults to 3
when the configured value is non-positive, then the loop above runs with
`lastErr` initially empty. -/
def sendRequestWithRetry (cfg : ClientConfig) (outcome : Nat → AttemptOutcome) :
    SendOutcome :=
  let maxRetries := if cfg.maxRetries ≤ 0 then 3 else cfg.maxRetries.toNat
  sendLoop cfg.proxyCount maxRetries outcome maxRetries 0 "" 0

/-- The observable outcome of the single attempt of `SendStreamRequestRaw`:
request construction failed, `client.Do` failed, or a response arrived with
the given status and (captured) body. -/
inductive StreamAttemptOutcome where
  | createError (msg : String)
  | transportError (msg : String)
  | http (status : Nat) (body : String)
deriving DecidableEq

/-- What one call of `SendStreamRequestRaw` did: how many HTTP requests were
issued, how many proxy rotations were performed, and the final result (a
200 response's status and body handle, or an error). -/
structure StreamSendOutcome where
  httpAttempts : Nat
  rotations : Nat
  result : Except String (Nat × String)

/-- `SendStreamRequestRaw`: build the request once and issue it once — no
loop, no rotation; a transport error or a non-200 status (with its captured
body) is returned immediately, a 200 response is handed back unread.  The
configuration is in scope in Go (fields of `c`) but unused. -/
def sendStreamRequestRaw (_cfg : ClientConfig) (outcome : StreamAttemptOutcome) :
    StreamSendOutcome :=
  match outcome with
  | .createError msg =>
    { httpAttempts := 0, rotations := 0, result := .error msg }
  | .transportError msg =>
    { httpAttempts := 1, rotations := 0,
      result := .error ("stream request failed: " ++ msg) }
  | .http status body =>
    if ¬ status = 200 then
      { httpAttempts := 1, rotations := 0,
        result := .error ("stream API request failed with status " ++
          toString status ++ ": " ++ body) }
    else
      { httpAttempts := 1, rotations := 0, result := .ok (status, body) }

/-! ## Credential manager (`pkg/auth/auth.go`) -/

/-- The compiled-in OAuth client identifier (`OAuthClientID`). -/
def oauthClientID : String :=
  "681255809395-oo8ft2oprdrnp9e3aqf6av3hmdib135j.apps.googleusercontent.com"

/-- `generateCallbackPath`: the fixed prefix followed by the identifier's
first 12 bytes, or, when the identifier is shorter than 12 bytes, by the
first 12 lowercase hex characters of its MD5 digest.  Go measures `len` and
slices in bytes, hence the byte-level phrasing. -/
def generateCallbackPath (clientID : String) : String :=
  if (strBytes clientID).length < 12 then
    "/oauth/callback/" ++ (md5Hex (strBytes clientID)).take 12
  else
    "/oauth/callback/" ++ bytesToStr ((strBytes clientID).take 12)

/-- An OAuth2 token as the manager sees it; only the access token's presence
is inspected by the code under verification. -/
structure OAuthToken where
  accessToken : String
  refreshToken : String
deriving DecidableEq

/-- The credential manager's state as touched by `Initialize` and the OAuth
callback: the persisted transport-encoded token list, the current token, the
token source (the token it was constructed from, when one was), the
`initialized` flag and the bound callback path. -/
structure AuthState where
  tokens : List String
  currentTokens : Option OAuthToken
  tokenSource : Option OAuthToken
  initialized : Bool
  callbackPath : String
deriving DecidableEq

/-- `loadTokenFromBase64`, with the standard-library base64+JSON decoding
supplied as the collaborator `decode` (`none` models a decode or parse
failure): a decoded token without an access token is rejected as
`invalid token: missing access_token`. -/
def loadTokenFromBase64 (decode : String → Option OAuthToken) (tokenBase64 : String) :
    Except String OAuthToken :=
  match decode tokenBase64 with
  | none => .error "failed to decode or parse token"
  | some token =>
    if token.accessToken = "" then .error "invalid token: missing access_token"
    else .ok token

/-- The token-loading loop of `Initialize`: try each persisted token in list
order and keep the first that loads. -/
def firstValidToken (decode : String → Option OAuthToken) : List String → Option OAuthToken
  | [] => none
  | s :: rest =>
    match loadTokenFromBase64 decode s with
    | .ok token => some token
    | .error _ => firstValidToken decode rest

/-- `Initialize`: a no-op when already initialized; otherwise adopt the first
structurally valid persisted token, build the token source from it and mark
the manager initialized, or — when no token loads and none was already
current — leave the state untouched and report the authorization-required
condition. -/
def initializeAuth (decode : String → Option OAuthToken) (g : AuthState) :
    AuthState × Except String Unit :=
  if g.initialized then (g, .ok ())
  else
    let current :=
      match firstValidToken decode g.tokens with
      | some token => some token
      | none => g.currentTokens
    match current with
    | none => (g, .error "OAuth2 authentication required, please call StartOAuthFlow")
    | some token =>
      ({ g with currentTokens := some token, tokenSource := some token,
                initialized := true }, .ok ())

/-- The response body the callback handler writes: a JSON object with
`status` and `message` fields (and the provider/exchange error when there is
one), the plain-text body `http.Error` writes, or no body at all. -/
inductive RespBody where
  | jsonPayload (status : String) (error : Option String) (message : String)
  | plainText (text : String)
  | noBody
deriving DecidableEq

/-- Whether a body is a JSON status payload of the shape
`{status, message, ...}`. -/
def RespBody.isJsonPayload : RespBody → Bool
  | .jsonPayload _ _ _ => true
  | _ => false

/-- What one invocation of the callback handler did: the HTTP status written,
the body written, the token state afterwards, and whether the single-slot
auth-complete notification was signalled. -/
structure CallbackResponse where
  statusCode : Nat
  body : RespBody
  tokensAfter : Option OAuthToken
  authSignaled : Bool
deriving DecidableEq

/-- `handleOAuthCallback` on a GET request carrying query parameters `code`
and `error` (Go's `Query().Get` yields `""` for an absent parameter).  The
token-exchange round trip (`oauthConfig.Exchange`, an external collaborator)
is supplied as `exchange`.  Branches, in source order: path mismatch →
400 via `http.Error` (plain text, newline-terminated); provider `error`
parameter → 400 JSON;
no `code` → 204 with no body; exchange failure → 500 JSON; success → store
the token, 200 JSON, signal auth completion. -/
def handleOAuthCallback (g : AuthState) (reqPath code errorParam : String)
    (exchange : Except String OAuthToken) : CallbackResponse :=
  if ¬ reqPath = g.callbackPath then
    { statusCode := 400,
      body := .plainText ("Invalid callback path: " ++ reqPath ++ ", expected: " ++
        g.callbackPath ++ "\n"),
      tokensAfter := g.currentTokens, authSignaled := false }
  else if ¬ errorParam = "" then
    { statusCode := 400,
      body := .jsonPayload "error" (some errorParam)
        "OAuth authorization failed. Please try the authorization process again.",
      tokensAfter := g.currentTokens, authSignaled := false }
  else if code = "" then
    { statusCode := 204, body := .noBody,
      tokensAfter := g.currentTokens, authSignaled := false }
  else
    match exchange with
    | .error e =>
      { statusCode := 500,
        body := .jsonPayload "error" (some e)
          "Token exchange failed. Please contact support if this problem persists.",
        tokensAfter := g.currentTokens, authSignaled := false }
    | .ok token =>
      { statusCode := 200,
        body := .jsonPayload "success" none "OAuth authentication successful",
        tokensAfter := some token, authSignaled := true }

/-! ### Project discovery (`onboardUser`) -/

/-- The decoded body of one `onboardUser` API response: the long-running
operation's `done` flag and the assigned `cloudaicompanionProject.id`. -/
structure OnboardBody where
  done : Bool
  projectId : String
deriving DecidableEq

/-- The observable outcome of one `onboardUser` HTTP call: a transport
error, or a response with its status and decoded body. -/
inductive OnboardCall where
  | transportError (msg : String)
  | response (status : Nat) (body : OnboardBody)
deriving DecidableEq

/-- `callOnboardAPI`: transport errors and non-200 statuses are errors; a
200 whose body reports completion with a non-empty id yields that id, and
any other 200 yields `""` (still onboarding, retry). -/
def callOnboardAPI (call : OnboardCall) : Except String String :=
  match call with
  | .transportError msg => .error ("failed to call onboard API: " ++ msg)
  | .response status body =>
    if ¬ status = 200 then .error ("onboard API returned status " ++ toString status)
    else if body.done ∧ ¬ body.projectId = "" then .ok body.projectId
    else .ok ""

/-- What the onboarding loop did: how many onboarding calls it made, how many
seconds of fixed backoff it slept, and the final result. -/
structure OnboardResult where
  calls : Nat
  sleptSeconds : Nat
  outcome : Except String String

/-- The `for i := 0; i < 10` loop of `onboardUser`: each incomplete call is
followed by a 2-second sleep; an error aborts immediately; a non-empty id
returns. -/
def onboardLoop (call : Nat → OnboardCall) : Nat → Nat → Nat → OnboardResult
  | 0, i, slept => { calls := i, sleptSeconds := slept,
                     outcome := .error "onboarding process timed out" }
  | remaining + 1, i, slept =>
    match callOnboardAPI (call i) with
    | .error e => { calls := i + 1, sleptSeconds := slept, outcome := .error e }
    | .ok projectID =>
      if ¬ projectID = "" then
        { calls := i + 1, sleptSeconds := slept, outcome := .ok projectID }
      else
        onboardLoop call remaining (i + 1) (slept + 2)

/-- `onboardUser`: at most 10 onboarding calls with 2-second backoff between
incomplete ones.  (The preliminary `loadCodeAssist` call whose result Go
ignores is omitted: it changes no state and no control flow.) -/
def onboardUser (call : Nat → OnboardCall) : OnboardResult :=
  onboardLoop call 10 0 0

/-! ## Observables used in the claims -/

/-- The texts of one turn's parts, in order. -/
def contentTexts (c : GeminiContent) : List String := c.parts.map (fun p => p.text)

/-- The concatenation of all text of a turn list, in order. -/
def allText (l : List GeminiContent) : String := strConcat (l.flatMap contentTexts)

/-- The result of decoding, parsing and structurally validating one persisted
token, as the loop of `Initialize` observes it (`some` exactly when
`loadTokenFromBase64` succeeds). -/
def tokenLoads (decode : String → Option OAuthToken) (s : String) : Option OAuthToken :=
  match loadTokenFromBase64 decode s with
  | .ok token => some token
  | .error _ => none

/-! ## Helper lemmas -/

/-- A string built as `a ++ sub ++ b` contains `sub`. -/
lemma strContains_middle (a sub b : String) : strContains (a ++ sub ++ b) sub = true := by
  unfold strContains
  exact decide_eq_true ⟨a.data, b.data, by simp [String.data_append]⟩

/-- Containment of character lists is transitive. -/
lemma within_trans {a b c : List Char} (h1 : a <:+: b) (h2 : b <:+: c) : a <:+: c := by
  obtain ⟨u, v, h⟩ := h1
  obtain ⟨x, y, h'⟩ := h2
  exact ⟨x ++ u, v ++ y, by rw [← h', ← h]; simp⟩

/-- `strContains` holds whenever the character-list containment does. -/
lemma strContains_of_within {hay sub : String} (h : sub.data <:+: hay.data) :
    strContains hay sub = true := decide_eq_true h

/-- ASCII characters encode to their single code-point byte. -/
lemma flatMap_utf8_ascii (l : List Char) (h : ∀ c ∈ l, c.toNat < 128) :
    l.flatMap utf8EncodeChar = l.map Char.toNat := by
  induction l with
  | nil => rfl
  | cons c rest ih =>
    have hc : c.toNat < 128 := h c (by simp)
    have hrest : ∀ x ∈ rest, x.toNat < 128 := fun x hx => h x (by simp [hx])
    simp [List.flatMap_cons, ih hrest, utf8EncodeChar, hc]

/-- C3 supporting fact: decoding the bytes of ASCII characters recovers them. -/
lemma bytesToStr_map_toNat (l : List Char) :
    bytesToStr (l.map Char.toNat) = String.mk l := by
  unfold bytesToStr
  rw [List.map_map]
  congr 1
  rw [show (Char.ofNat ∘ Char.toNat) = id from funext Char.ofNat_toNat, List.map_id]

/-! ## Claim C3 — callback-path derivation -/

/-- C3: callback-path derivation is a deterministic function of the client
identifier alone: identifiers of (byte) length at least 12 yield the fixed
prefix followed by their first 12 characters; shorter identifiers yield the
prefix followed by the first 12 hex characters of the identifier's MD5
digest; the compiled-in client identifier yields
`/oauth/callback/681255809395`; equal identifiers yield equal paths. -/
theorem callback_path_derivation (clientID : String) :
    (12 ≤ (strBytes clientID).length → (∀ c ∈ clientID.data, c.toNat < 128) →
      generateCallbackPath clientID =
        "/oauth/callback/" ++ String.mk (clientID.data.take 12)) ∧
    ((strBytes clientID).length < 12 →
      generateCallbackPath clientID =
        "/oauth/callback/" ++ (md5Hex (strBytes clientID)).take 12) ∧
    generateCallbackPath "681255809395-oo8ft2oprdrnp9e3aqf6av3hmdib135j" =
      "/oauth/callback/681255809395" ∧
    (∀ other : String, other = clientID →
      generateCallbackPath other = generateCallbackPath clientID) := by
  refine ⟨?_, ?_, ?_, ?_⟩
  · intro h12 hascii
    unfold generateCallbackPath
    rw [if_neg (by omega)]
    unfold strBytes
    rw [flatMap_utf8_ascii _ hascii, ← List.map_take, bytesToStr_map_toNat]
  · intro hlt
    unfold generateCallbackPath
    rw [if_pos hlt]
  · decide
  · intro other h
    rw [h]

/-- C3 witness: both branches and the compiled-in identifier, at concrete
inputs. -/
theorem callback_path_derivation_witness :
    generateCallbackPath "681255809395-oo8ft2oprdrnp9e3aqf6av3hmdib135j" =
      "/oauth/callback/681255809395" ∧
    generateCallbackPath "abc" = "/oauth/callback/" ++ (md5Hex (strBytes "abc")).take 12 ∧
    generateCallbackPath "681255809395-oo8ft2oprdrnp9e3aqf6av3hmdib135j" =
      "/oauth/callback/" ++
        String.mk ("681255809395-oo8ft2oprdrnp9e3aqf6av3hmdib135j".data.take 12) :=
  ⟨(callback_path_derivation "x").2.2.1,
   (callback_path_derivation "abc").2.1 (by decide),
   (callback_path_derivation "681255809395-oo8ft2oprdrnp9e3aqf6av3hmdib135j").1
     (by decide) (by decide)⟩

/-! ## Claim C7 — merging consecutive same-role turns -/

/-- Merging two turns' first texts preserves the accumulating turn's role. -/
lemma mergeFirstText_role (a b : GeminiContent) : (mergeFirstText a b).role = a.role := by
  unfold mergeFirstText
  split <;> rfl

/-- The merge loop emits a non-empty list whose head carries the running
turn's role. -/
lemma mergeLoop_cons (rest : List GeminiContent) :
    ∀ current, ∃ c out, mergeLoop current rest = c :: out ∧ c.role = current.role := by
  induction rest with
  | nil => exact fun current => ⟨current, [], rfl, rfl⟩
  | cons next rest ih =>
    intro current
    by_cases hrole : current.role = next.role
    · by_cases hparts : 0 < current.parts.length ∧ 0 < next.parts.length
      · obtain ⟨c, out, heq, hr⟩ := ih (mergeFirstText current next)
        exact ⟨c, out, by simp [mergeLoop, hrole, hparts, heq],
          by rw [hr, mergeFirstText_role]⟩
      · obtain ⟨c, out, heq, hr⟩ := ih current
        exact ⟨c, out, by simp [mergeLoop, hrole, hparts, heq], hr⟩
    · exact ⟨current, mergeLoop next rest, by simp [mergeLoop, hrole], rfl⟩

/-- The merge loop never emits two adjacent turns with equal role. -/
lemma mergeLoop_chain (rest : List GeminiContent) :
    ∀ current, List.Chain' (fun a b => ¬ a.role = b.role) (mergeLoop current rest) := by
  induction rest with
  | nil => intro current; simp [mergeLoop]
  | cons next rest ih =>
    intro current
    by_cases hrole : current.role = next.role
    · by_cases hparts : 0 < current.parts.length ∧ 0 < next.parts.length
      · simpa [mergeLoop, hrole, hparts] using ih (mergeFirstText current next)
      · simpa [mergeLoop, hrole, hparts] using ih current
    · obtain ⟨c, out, heq, hr⟩ := mergeLoop_cons rest next
      rw [show mergeLoop current (next :: rest) = current :: mergeLoop next rest by
            simp [mergeLoop, hrole],
          heq]
      refine List.Chain'.cons ?_ (heq ▸ ih next)
      rw [hr]
      exact hrole

/-- Unfolding `strConcat` to character lists. -/
lemma strConcat_data (l : List String) :
    (strConcat l).data = (l.map String.data).flatten := by
  induction l with
  | nil => rfl
  | cons s rest ih => simp [strConcat, String.data_append, ih]

/-- The text of any part of the running turn or of the remaining turns is
contained in the concatenated text of the merge loop's output, provided every
turn carries exactly one part. -/
lemma mergeLoop_text (rest : List GeminiContent) :
    ∀ current, current.parts.length = 1 → (∀ c ∈ rest, c.parts.length = 1) →
    ∀ t, (t ∈ contentTexts current ∨ ∃ c ∈ rest, t ∈ contentTexts c) →
      t.data <:+: (allText (mergeLoop current rest)).data := by
  induction rest with
  | nil =>
    intro current hcur _ t ht
    obtain ⟨p, hp⟩ := List.length_eq_one.mp hcur
    rcases ht with ht | ht
    · rw [contentTexts, hp] at ht
      simp at ht
      subst ht
      refine ⟨[], [], ?_⟩
      simp [mergeLoop, allText, contentTexts, hp, strConcat_data]
    · simp at ht
  | cons next rest ih =>
    intro current hcur hall t ht
    have hnext : next.parts.length = 1 := hall next (by simp)
    have hrest : ∀ c ∈ rest, c.parts.length = 1 := fun c hc => hall c (by simp [hc])
    obtain ⟨p, hp⟩ := List.length_eq_one.mp hcur
    obtain ⟨q, hq⟩ := List.length_eq_one.mp hnext
    by_cases hrole : current.role = next.role
    · have hparts : 0 < current.parts.length ∧ 0 < next.parts.length := by
        rw [hcur, hnext]; exact ⟨Nat.one_pos, Nat.one_pos⟩
      have hmerge : mergeFirstText current next =
          { current with parts := [GeminiPart.mk (p.text ++ "\n" ++ q.text)] } := by
        unfold mergeFirstText
        rw [hp, hq]
      have hloop : mergeLoop current (next :: rest) =
          mergeLoop (mergeFirstText current next) rest := by
        simp [mergeLoop, hrole, hparts]
      rw [hloop, hmerge]
      have hlen : ({ current with parts := [GeminiPart.mk (p.text ++ "\n" ++ q.text)]} :
          GeminiContent).parts.length = 1 := rfl
      have hbig := ih _ hlen hrest (p.text ++ "\n" ++ q.text)
        (Or.inl (by simp [contentTexts]))
      rcases ht with ht | ht
      · rw [contentTexts, hp] at ht
        simp at ht
        subst ht
        refine within_trans ?_ hbig
        exact ⟨[], ("\n" ++ q.text).data, by simp [String.data_append]⟩
      · simp at ht
        rcases ht with ht | ⟨c, hc, htc⟩
        · rw [contentTexts, hq] at ht
          simp at ht
          subst ht
          refine within_trans ?_ hbig
          exact ⟨(p.text ++ "\n").data, [], by simp [String.data_append]⟩
        · exact within_trans (by exact ⟨[], [], by simp⟩)
            (ih _ hlen hrest t (Or.inr ⟨c, hc, htc⟩))
    · have hloop : mergeLoop current (next :: rest) = current :: mergeLoop next rest := by
        simp [mergeLoop, hrole]
      rw [hloop]
      rcases ht with ht | ht
      · rw [contentTexts, hp] at ht
        simp at ht
        subst ht
        refine ⟨[], (allText (mergeLoop next rest)).data, ?_⟩
        simp [allText, strConcat_data, contentTexts, hp]
      · have hin := ih next hnext hrest t (by
          simp at ht
          rcases ht with ht | ⟨c, hc, htc⟩
          · exact Or.inl ht
          · exact Or.inr ⟨c, hc, htc⟩)
        obtain ⟨u, v, huv⟩ := hin
        refine ⟨((contentTexts current).map String.data).flatten ++ u, v, ?_⟩
        rw [show (allText (current :: mergeLoop next rest)).data =
            ((contentTexts current).map String.data).flatten ++
              (allText (mergeLoop next rest)).data by
          simp [allText, strConcat_data], ← huv]
        simp

/-- C7 counterexample: as stated over every list of turns the claim fails —
a same-role successor of a turn with an empty parts list is dropped together
with its non-empty text, because the merge guard requires both turns to have
parts.  At this input the merged output's concatenated text no longer
contains the non-empty input text `hello`. -/
theorem merge_drops_text_counterexample :
    mergeConsecutiveMessages
        [GeminiContent.mk "user" [], GeminiContent.mk "user" [GeminiPart.mk "hello"]] =
      [GeminiContent.mk "user" []] ∧
    strContains
      (allText (mergeConsecutiveMessages
        [GeminiContent.mk "user" [], GeminiContent.mk "user" [GeminiPart.mk "hello"]]))
      "hello" = false ∧
    ¬ "hello" = "" ∧
    "hello" ∈ contentTexts (GeminiContent.mk "user" [GeminiPart.mk "hello"]) := by
  refine ⟨by decide, by decide, by decide, by decide⟩

/-- C7 (amended): when every input turn carries exactly one part — the shape
`OpenAIToGeminiRequest` always produces — merging consecutive same-role turns
drops no non-empty text (the concatenation of all merged text contains every
non-empty input text); and, for every input, the merged output never contains
two adjacent turns with equal role. -/
theorem merge_preserves_text_and_roles (contents : List GeminiContent) :
    ((∀ c ∈ contents, c.parts.length = 1) →
      ∀ c ∈ contents, ∀ p ∈ c.parts, ¬ p.text = "" →
        strContains (allText (mergeConsecutiveMessages contents)) p.text = true) ∧
    List.Chain' (fun a b => ¬ a.role = b.role) (mergeConsecutiveMessages contents) := by
  constructor
  · intro hone c hc p hp _
    refine strContains_of_within ?_
    match contents, hc with
    | c0 :: rest, hc =>
      have hcur : c0.parts.length = 1 := hone c0 (by simp)
      have hrest : ∀ x ∈ rest, x.parts.length = 1 := fun x hx => hone x (by simp [hx])
      have hmem : p.text ∈ contentTexts c0 ∨ ∃ x ∈ rest, p.text ∈ contentTexts x := by
        rcases List.mem_cons.mp hc with h | h
        · subst h
          exact Or.inl (List.mem_map_of_mem _ hp)
        · exact Or.inr ⟨c, h, List.mem_map_of_mem _ hp⟩
      have hmain := mergeLoop_text rest c0 hcur hrest p.text hmem
      match rest with
      | [] =>
        simpa [mergeConsecutiveMessages, mergeLoop] using hmain
      | c1 :: rest' =>
        simpa [mergeConsecutiveMessages] using hmain
  · match contents with
    | [] => simp [mergeConsecutiveMessages]
    | [c] => simp [mergeConsecutiveMessages]
    | c0 :: c1 :: rest =>
      simpa [mergeConsecutiveMessages] using mergeLoop_chain (c1 :: rest) c0

/-- C7 witness: a concrete three-turn conversation with two consecutive user
turns; the merged text retains both texts and roles alternate. -/
theorem merge_preserves_text_and_roles_witness :
    strContains
      (allText (mergeConsecutiveMessages
        [GeminiContent.mk "user" [GeminiPart.mk "hi"],
         GeminiContent.mk "user" [GeminiPart.mk "there"],
         GeminiContent.mk "model" [GeminiPart.mk "hello"]]))
      "there" = true :=
  (merge_preserves_text_and_roles
      [GeminiContent.mk "user" [GeminiPart.mk "hi"],
       GeminiContent.mk "user" [GeminiPart.mk "there"],
       GeminiContent.mk "model" [GeminiPart.mk "hello"]]).1
    (by decide) (GeminiContent.mk "user" [GeminiPart.mk "there"]) (by decide)
    (GeminiPart.mk "there") (by decide) (by decide)

/-! ## Claim C5 — system-instruction assembly -/

/-- C5: when the message list contains system-role entries and an explicit
system-instruction field with parts is also present, the converted request's
system-instruction block is exactly the embedded entries' texts in message
order followed by the explicit parts in their order; when neither source is
present, no block is set. -/
theorem system_instruction_assembly (req : OpenAIRequest) :
    (¬ req.messages.filter (fun m => strToLower m.role = "system") = [] →
      ∀ si, req.systemInstruction = some si → ¬ si.parts = [] →
        (openAIToGeminiRequest req).systemInstruction =
          some (GeminiSystemInstruction.mk
            (((req.messages.filter (fun m => strToLower m.role = "system")).map
                (fun m => GeminiPart.mk m.content)) ++ si.parts))) ∧
    (req.messages.filter (fun m => strToLower m.role = "system") = [] →
      (req.systemInstruction = none ∨
        (∃ si, req.systemInstruction = some si ∧ si.parts = [])) →
      (openAIToGeminiRequest req).systemInstruction = none) := by
  constructor
  · intro hsys si hsi hparts
    have hlen : 0 < si.parts.length := List.length_pos.mpr hparts
    have hmaplen :
        0 < ((req.messages.filter (fun m => strToLower m.role = "system")).map
          (fun m => GeminiPart.mk m.content)).length := by
      rw [List.length_map, List.length_pos]
      exact hsys
    simp only [openAIToGeminiRequest, List.partition_eq_filter_filter, hsi]
    rw [if_pos hlen]
    rw [if_pos (by simp; omega)]
  · intro hsys hnone
    simp only [openAIToGeminiRequest, List.partition_eq_filter_filter, hsys]
    rcases hnone with h | ⟨si, hsi, hparts⟩
    · simp [h]
    · simp [hsi, hparts]

/-- C5 witness: one embedded system message plus one explicit part combine in
order; a request with neither yields no block. -/
theorem system_instruction_assembly_witness :
    GeminiRequest.systemInstruction (openAIToGeminiRequest
      { model := "gemini-pro",
        messages := [OpenAIMessage.mk "system" "be kind", OpenAIMessage.mk "user" "hi"],
        temperature := none, topP := none, maxTokens := none, stop := [],
        stream := false,
        systemInstruction := some (GeminiSystemInstruction.mk [GeminiPart.mk "extra"]) }) =
      some (GeminiSystemInstruction.mk [GeminiPart.mk "be kind", GeminiPart.mk "extra"]) ∧
    GeminiRequest.systemInstruction (openAIToGeminiRequest
      { model := "gemini-pro",
        messages := [OpenAIMessage.mk "user" "hi"],
        temperature := none, topP := none, maxTokens := none, stop := [],
        stream := false, systemInstruction := none }) = none := by
  constructor
  · have h := (system_instruction_assembly
      { model := "gemini-pro",
        messages := [OpenAIMessage.mk "system" "be kind", OpenAIMessage.mk "user" "hi"],
        temperature := none, topP := none, maxTokens := none, stop := [],
        stream := false,
        systemInstruction := some (GeminiSystemInstruction.mk [GeminiPart.mk "extra"]) }).1
      (by decide) (GeminiSystemInstruction.mk [GeminiPart.mk "extra"]) rfl (by decide)
    simpa using h
  · exact (system_instruction_assembly
      { model := "gemini-pro",
        messages := [OpenAIMessage.mk "user" "hi"],
        temperature := none, topP := none, maxTokens := none, stop := [],
        stream := false, systemInstruction := none }).2 (by decide) (Or.inl rfl)

/-! ## Claim C8 — validate/clamp idempotence -/

/-- Role inference leaves no empty role. -/
lemma fixRoles_ne_empty (l : List GeminiContent) :
    ∀ isFirst lastRole, ∀ c ∈ fixRoles isFirst lastRole l, ¬ c.role = "" := by
  induction l with
  | nil => intro _ _ c hc; simp [fixRoles] at hc
  | cons c0 rest ih =>
    intro isFirst lastRole c hc
    simp only [fixRoles, List.mem_cons] at hc
    rcases hc with hc | hc
    · subst hc
      by_cases h0 : c0.role = "" <;> simp [h0] <;> split_ifs <;> simp
    · exact ih _ _ c hc

/-- Role inference is the identity on lists without empty roles. -/
lemma fixRoles_id (l : List GeminiContent) :
    ∀ isFirst lastRole, (∀ c ∈ l, ¬ c.role = "") → fixRoles isFirst lastRole l = l := by
  induction l with
  | nil => intro _ _ _; rfl
  | cons c0 rest ih =>
    intro isFirst lastRole h
    have h0 : ¬ c0.role = "" := h c0 (by simp)
    simp only [fixRoles, if_neg h0]
    rw [ih false c0.role (fun c hc => h c (by simp [hc]))]

/-- The Code Assist pass leaves no empty role. -/
lemma codeAssistRoles_ne_empty (l : List GeminiContent) :
    ∀ c ∈ codeAssistRoles l, ¬ c.role = "" := by
  intro c hc
  simp only [codeAssistRoles, List.mem_map] at hc
  obtain ⟨c0, _, hc0⟩ := hc
  by_cases h0 : c0.role = ""
  · rw [← hc0]; simp [h0]
  · rw [← hc0]; simp [h0]

/-- The Code Assist pass is the identity on lists without empty roles. -/
lemma codeAssistRoles_id (l : List GeminiContent) (h : ∀ c ∈ l, ¬ c.role = "") :
    codeAssistRoles l = l := by
  unfold codeAssistRoles
  rw [List.map_congr_left (fun c hc => if_neg (h c hc))]
  exact List.map_id' l

/-- Field-wise description of the token-cap paragraph. -/
lemma capMaxTokens_mk (modelID : String) (t p : Option ℚ) (k m : Option Int)
    (s : List String) :
    capMaxTokens modelID (GeminiGenerationConfig.mk t p k m s) =
      GeminiGenerationConfig.mk t p k
        (match lookupLimit modelID, m with
         | some L, none => some L
         | some L, some v => if L < v then some L else some v
         | none, none => some 2048
         | none, some v => some v) s := by
  unfold capMaxTokens
  rcases lookupLimit modelID with _ | L <;> rcases m with _ | v
  · rfl
  · rfl
  · rfl
  · by_cases h : L < v
    · simp [h]
    · simp [h]

/-- Field-wise description of the temperature clamp. -/
lemma clampTemperature_mk (t p : Option ℚ) (k m : Option Int) (s : List String) :
    clampTemperature (GeminiGenerationConfig.mk t p k m s) =
      GeminiGenerationConfig.mk
        (t.map (fun x => if x < 0 then 0 else if 2 < x then 2 else x)) p k m s := by
  rcases t with _ | x <;> rfl

/-- Field-wise description of the top-p clamp. -/
lemma clampTopP_mk (t p : Option ℚ) (k m : Option Int) (s : List String) :
    clampTopP (GeminiGenerationConfig.mk t p k m s) =
      GeminiGenerationConfig.mk t
        (p.map (fun x => if x < 0 then 0 else if 1 < x then 1 else x)) k m s := by
  rcases p with _ | x <;> rfl

/-- Field-wise description of the top-k clamp. -/
lemma clampTopK_mk (t p : Option ℚ) (k m : Option Int) (s : List String) :
    clampTopK (GeminiGenerationConfig.mk t p k m s) =
      GeminiGenerationConfig.mk t p (k.map (fun x => if x < 1 then 1 else x)) m s := by
  rcases k with _ | x
  · rfl
  · by_cases h : x < 1
    · simp [clampTopK, h]
    · simp [clampTopK, h]

/-- Field-wise description of the generation-config validation pass. -/
lemma fixGenerationConfig_fields (modelID : String) (t p : Option ℚ) (k m : Option Int)
    (s : List String) :
    fixGenerationConfig modelID (GeminiGenerationConfig.mk t p k m s) =
      GeminiGenerationConfig.mk
        (t.map (fun x => if x < 0 then 0 else if 2 < x then 2 else x))
        (p.map (fun x => if x < 0 then 0 else if 1 < x then 1 else x))
        (k.map (fun x => if x < 1 then 1 else x))
        (match lookupLimit modelID, m with
         | some L, none => some L
         | some L, some v => if L < v then some L else some v
         | none, none => some 2048
         | none, some v => some v) s := by
  unfold fixGenerationConfig
  rw [capMaxTokens_mk, clampTemperature_mk, clampTopP_mk, clampTopK_mk]

/-- The generation-config validation pass is idempotent. -/
lemma fixGenerationConfig_idem (modelID : String) (cfg : GeminiGenerationConfig) :
    fixGenerationConfig modelID (fixGenerationConfig modelID cfg) =
      fixGenerationConfig modelID cfg := by
  obtain ⟨t, p, k, m, s⟩ := cfg
  rw [fixGenerationConfig_fields, fixGenerationConfig_fields]
  have ht : Option.map (fun x => if x < 0 then 0 else if 2 < x then 2 else x)
      (Option.map (fun x => if x < 0 then 0 else if 2 < x then 2 else x) t) =
      Option.map (fun x => if x < 0 then 0 else if 2 < x then (2:ℚ) else x) t := by
    rcases t with _ | x
    · rfl
    · simp only [Option.map_some']
      congr 1
      split_ifs <;> linarith
  have hp : Option.map (fun x => if x < 0 then 0 else if 1 < x then 1 else x)
      (Option.map (fun x => if x < 0 then 0 else if 1 < x then 1 else x) p) =
      Option.map (fun x => if x < 0 then 0 else if 1 < x then (1:ℚ) else x) p := by
    rcases p with _ | x
    · rfl
    · simp only [Option.map_some']
      congr 1
      split_ifs <;> linarith
  have hk : Option.map (fun x => if x < 1 then 1 else x)
      (Option.map (fun x => if x < 1 then 1 else x) k) =
      Option.map (fun x => if x < 1 then (1:Int) else x) k := by
    rcases k with _ | x
    · rfl
    · simp only [Option.map_some']
      congr 1
      split_ifs <;> omega
  have hm : (match lookupLimit modelID,
        (match lookupLimit modelID, m with
         | some L, none => some L
         | some L, some v => if L < v then some L else some v
         | none, none => some 2048
         | none, some v => some v) with
       | some L, none => some L
       | some L, some v => if L < v then some L else some v
       | none, none => some 2048
       | none, some v => some v) =
      (match lookupLimit modelID, m with
       | some L, none => some L
       | some L, some v => if L < v then some L else some v
       | none, none => some 2048
       | none, some v => some v) := by
    rcases hL : lookupLimit modelID with _ | L <;> rcases m with _ | v
    · simp
    · simp
    · simp [lt_irrefl]
    · by_cases h : L < v
      · simp [h, lt_irrefl]
      · simp [h]
  rw [ht, hp, hk, hm]

/-- C8: validate/clamp is idempotent — a second application changes nothing —
and one application leaves temperature in [0,2], top-p in [0,1] and top-k at
least 1 whenever those parameters are present. -/
theorem validate_clamp_idempotent (useCodeAssist : Bool) (modelID : String)
    (req : GeminiRequest) :
    validateAndFixRequest useCodeAssist modelID
        (validateAndFixRequest useCodeAssist modelID req) =
      validateAndFixRequest useCodeAssist modelID req ∧
    (∀ cfg, (validateAndFixRequest useCodeAssist modelID req).generationConfig = some cfg →
      (∀ t, cfg.temperature = some t → 0 ≤ t ∧ t ≤ 2) ∧
      (∀ p, cfg.topP = some p → 0 ≤ p ∧ p ≤ 1) ∧
      (∀ k, cfg.topK = some k → 1 ≤ k)) := by
  constructor
  · cases useCodeAssist with
    | false =>
      rcases hg : req.generationConfig with _ | cfg <;>
        simp only [validateAndFixRequest, hg, Bool.false_eq_true, if_false] <;>
        rw [fixRoles_id _ _ _ (fun c hc => fixRoles_ne_empty _ _ _ c hc)]
      rw [fixGenerationConfig_idem]
    | true =>
      rcases hg : req.generationConfig with _ | cfg <;>
        simp only [validateAndFixRequest, hg, if_true] <;>
        rw [fixRoles_id _ _ _ (fun c hc => codeAssistRoles_ne_empty _ c hc),
            codeAssistRoles_id _ (fun c hc => codeAssistRoles_ne_empty _ c hc)]
      rw [fixGenerationConfig_idem]
  · intro cfg hcfg
    rcases hg : req.generationConfig with _ | cfg0
    · simp [validateAndFixRequest, hg] at hcfg
    · simp only [validateAndFixRequest, hg] at hcfg
      obtain ⟨t, p, k, m, s⟩ := cfg0
      rw [fixGenerationConfig_fields] at hcfg
      injection hcfg with hcfg
      subst hcfg
      refine ⟨fun tv htv => ?_, fun pv hpv => ?_, fun kv hkv => ?_⟩
      · rcases t with _ | x
        · simp at htv
        · simp only [Option.map_some'] at htv
          injection htv with htv
          subst htv
          split_ifs <;> constructor <;> linarith
      · rcases p with _ | x
        · simp at hpv
        · simp only [Option.map_some'] at hpv
          injection hpv with hpv
          subst hpv
          split_ifs <;> constructor <;> linarith
      · rcases k with _ | x
        · simp at hkv
        · simp only [Option.map_some'] at hkv
          injection hkv with hkv
          subst hkv
          split_ifs <;> omega

/-- C8 witness: a concrete out-of-range request is clamped once and a second
application changes nothing; the clamped temperature obeys the bounds. -/
theorem validate_clamp_idempotent_witness :
    validateAndFixRequest false "gemini-pro"
        (validateAndFixRequest false "gemini-pro"
          { contents := [GeminiContent.mk "" [GeminiPart.mk "hi"]],
            systemInstruction := none,
            generationConfig :=
              some (GeminiGenerationConfig.mk (some 3) (some (-1)) (some 0) (some 99999) []) }) =
      validateAndFixRequest false "gemini-pro"
        { contents := [GeminiContent.mk "" [GeminiPart.mk "hi"]],
          systemInstruction := none,
          generationConfig :=
            some (GeminiGenerationConfig.mk (some 3) (some (-1)) (some 0) (some 99999) []) } ∧
    ((0:ℚ) ≤ 2 ∧ (2:ℚ) ≤ 2) :=
  ⟨(validate_clamp_idempotent false "gemini-pro"
      { contents := [GeminiContent.mk "" [GeminiPart.mk "hi"]],
        systemInstruction := none,
        generationConfig :=
          some (GeminiGenerationConfig.mk (some 3) (some (-1)) (some 0) (some 99999) []) }).1,
   ((validate_clamp_idempotent false "gemini-pro"
      { contents := [GeminiContent.mk "" [GeminiPart.mk "hi"]],
        systemInstruction := none,
        generationConfig :=
          some (GeminiGenerationConfig.mk (some 3) (some (-1)) (some 0) (some 99999) []) }).2
      (GeminiGenerationConfig.mk (some 2) (some 0) (some 1) (some 2048) [])
      (by decide)).1 2 rfl⟩


/-! ## Claim C9 — unified response shape -/

/-- C9: converting any non-nil native response succeeds and yields exactly one
choice with index 0 and role `assistant`; with an empty candidate list the
content is empty and no finish reason is set. -/
theorem gemini_response_single_choice (requestID : String) (created : Int)
    (resp : GeminiResponse) (model : String) :
    ∃ r, geminiToOpenAIResponse requestID created (some resp) model = .ok r ∧
      r.choices.length = 1 ∧
      (∀ ch ∈ r.choices, ch.index = 0 ∧
        ∃ msg, ch.message = some msg ∧ msg.role = "assistant") ∧
      (resp.candidates = [] →
        r.choices = [OpenAIChoice.mk 0
          (some (OpenAIMessage.mk "assistant" "")) none none]) := by
  refine ⟨_, rfl, ?_, ?_, ?_⟩
  · rcases resp.candidates with _ | ⟨c, rest⟩ <;> rfl
  · intro ch hch
    rcases hc : resp.candidates with _ | ⟨c, rest⟩ <;>
      rw [hc] at hch <;> simp at hch <;> subst hch <;>
      exact ⟨rfl, _, rfl, rfl⟩
  · intro hempty
    rw [hempty]

/-- C9 witness: a concrete response with no candidates converts to one empty
assistant choice without finish reason. -/
theorem gemini_response_single_choice_witness :
    ∃ r, geminiToOpenAIResponse "id-1" 7 (some (GeminiResponse.mk [] none)) "gemini-pro" =
        .ok r ∧
      r.choices = [OpenAIChoice.mk 0 (some (OpenAIMessage.mk "assistant" "")) none none] := by
  obtain ⟨r, hr, _, _, hemp⟩ :=
    gemini_response_single_choice "id-1" 7 (GeminiResponse.mk [] none) "gemini-pro"
  exact ⟨r, hr, hemp rfl⟩

/-! ## Claim C1 — retry exhaustion on transient transport errors -/

/-- With at least two proxy routes and a transient transport error on every
attempt, the retry loop consumes every remaining attempt and reports the last
wrapped error behind the attempt-count prefix. -/
lemma sendLoop_all_transient (proxyCount maxRetries : Nat)
    (outcome : Nat → AttemptOutcome) (msgs : Nat → String)
    (hout : ∀ i, outcome i = .transportError (msgs i))
    (hnet : ∀ i, isNetworkError (msgs i) = true)
    (hpc : 2 ≤ proxyCount) :
    ∀ remaining, 1 ≤ remaining → ∀ attempt lastErr rot,
      (sendLoop proxyCount maxRetries outcome remaining attempt lastErr rot).attempts =
        attempt + remaining ∧
      (sendLoop proxyCount maxRetries outcome remaining attempt lastErr rot).result =
        .error ("request failed after " ++ toString maxRetries ++ " attempts: " ++
          ("request failed: " ++ msgs (attempt + remaining - 1))) := by
  intro remaining
  induction remaining with
  | zero => intro h; exact absurd h (by omega)
  | succ n ih =>
    intro _ attempt lastErr rot
    have hcond : 1 < proxyCount ∧ isNetworkError (msgs attempt) = true :=
      ⟨by omega, hnet attempt⟩
    cases n with
    | zero =>
      simp only [sendLoop, hout attempt, if_pos hcond]
      constructor <;> simp
    | succ m =>
      have hrec := ih (by omega) (attempt + 1) ("request failed: " ++ msgs attempt)
        (if 0 < attempt ∧ 1 < proxyCount then rot + 1 else rot)
      have hidx : attempt + 1 + (m + 1) - 1 = attempt + (m + 1 + 1) - 1 := by omega
      rw [hidx] at hrec
      constructor
      · rw [show (sendLoop proxyCount maxRetries outcome (m + 1 + 1) attempt lastErr
            rot).attempts = (sendLoop proxyCount maxRetries outcome (m + 1) (attempt + 1)
              ("request failed: " ++ msgs attempt)
              (if 0 < attempt ∧ 1 < proxyCount then rot + 1 else rot)).attempts by
          simp only [sendLoop, hout attempt, if_pos hcond]]
        omega
      · rw [show (sendLoop proxyCount maxRetries outcome (m + 1 + 1) attempt lastErr
            rot).result = (sendLoop proxyCount maxRetries outcome (m + 1) (attempt + 1)
              ("request failed: " ++ msgs attempt)
              (if 0 < attempt ∧ 1 < proxyCount then rot + 1 else rot)).result by
          simp only [sendLoop, hout attempt, if_pos hcond]]
        exact hrec.2

/-- C1: with max retries `N ≥ 1` configured and every attempt failing with a
transport error from the transient lexicon, the non-streaming send makes
exactly `N` attempts when at least two proxy routes are configured — the
returned error being the last wrapped error prefixed with the attempt count,
so it mentions `"N attempts"` — and fails immediately after one attempt
otherwise. -/
theorem send_retry_transient_exhaustion (cfg : ClientConfig)
    (outcome : Nat → AttemptOutcome) (msgs : Nat → String) (N : Nat)
    (hN : 1 ≤ N) (hcfg : cfg.maxRetries = (N : Int))
    (hout : ∀ i, outcome i = .transportError (msgs i))
    (hnet : ∀ i, isNetworkError (msgs i) = true) :
    (2 ≤ cfg.proxyCount →
      (sendRequestWithRetry cfg outcome).attempts = N ∧
      (sendRequestWithRetry cfg outcome).result =
        .error ("request failed after " ++ toString N ++ " attempts: " ++
          ("request failed: " ++ msgs (N - 1))) ∧
      strContains
        ("request failed after " ++ toString N ++ " attempts: " ++
          ("request failed: " ++ msgs (N - 1)))
        (toString N ++ " attempts") = true) ∧
    (cfg.proxyCount ≤ 1 →
      (sendRequestWithRetry cfg outcome).attempts = 1 ∧
      (sendRequestWithRetry cfg outcome).result =
        .error ("request failed: " ++ msgs 0)) := by
  have hmr : (if cfg.maxRetries ≤ 0 then 3 else cfg.maxRetries.toNat) = N := by
    rw [hcfg]
    rw [if_neg (by omega)]
    exact Int.toNat_natCast N
  constructor
  · intro hpc
    have hmain := sendLoop_all_transient cfg.proxyCount N outcome msgs hout hnet hpc
      N hN 0 "" 0
    rw [Nat.zero_add] at hmain
    refine ⟨?_, ?_, ?_⟩
    · rw [sendRequestWithRetry, hmr]
      exact hmain.1
    · rw [sendRequestWithRetry, hmr]
      exact hmain.2
    · refine strContains_of_within ?_
      have hlit : (" attempts: ").data = (" attempts").data ++ (": ").data := rfl
      refine ⟨("request failed after ").data,
        (": ").data ++ ("request failed: " ++ msgs (N - 1)).data, ?_⟩
      simp [String.data_append, List.append_assoc]
  · intro hpc
    have h1 : ¬ (1 < cfg.proxyCount ∧ isNetworkError (msgs 0) = true) := by
      intro ⟨h, _⟩
      omega
    rcases N with _ | n
    · omega
    · rw [sendRequestWithRetry, hmr]
      simp only [sendLoop, hout 0, if_neg h1]
      constructor <;> simp

/-- C1 witness: three configured retries, two proxy routes and a persistent
`connection refused` yield three attempts and the
`request failed after 3 attempts` error; with one route the call fails on the
first attempt. -/
theorem send_retry_transient_exhaustion_witness :
    ((sendRequestWithRetry (ClientConfig.mk 2 3)
        (fun _ => .transportError "connection refused")).attempts = 3 ∧
      (sendRequestWithRetry (ClientConfig.mk 2 3)
        (fun _ => .transportError "connection refused")).result =
        .error ("request failed after " ++ toString 3 ++ " attempts: " ++
          ("request failed: " ++ "connection refused"))) ∧
    ((sendRequestWithRetry (ClientConfig.mk 1 3)
        (fun _ => .transportError "connection refused")).attempts = 1 ∧
      (sendRequestWithRetry (ClientConfig.mk 1 3)
        (fun _ => .transportError "connection refused")).result =
        .error ("request failed: " ++ "connection refused")) := by
  constructor
  · have h := (send_retry_transient_exhaustion (ClientConfig.mk 2 3)
      (fun _ => .transportError "connection refused") (fun _ => "connection refused") 3
      (by omega) rfl (fun _ => rfl) (by intro i; show isNetworkError "connection refused" = true; decide)).1 (by decide)
    exact ⟨h.1, h.2.1⟩
  · exact (send_retry_transient_exhaustion (ClientConfig.mk 1 3)
      (fun _ => .transportError "connection refused") (fun _ => "connection refused") 3
      (by omega) rfl (fun _ => rfl) (by intro i; show isNetworkError "connection refused" = true; decide)).2 (by decide)

/-! ## Claim C10 — raw streaming performs a single attempt -/

/-- C10: the raw streaming operation issues at most one HTTP request and
never rotates the proxy, independently of the configured retry bound and
route count; a transport error or non-200 status (carrying the captured
body) is returned immediately and a 200 response is handed back. -/
theorem stream_raw_single_attempt (cfg cfg' : ClientConfig)
    (outcome : StreamAttemptOutcome) :
    sendStreamRequestRaw cfg outcome = sendStreamRequestRaw cfg' outcome ∧
    (sendStreamRequestRaw cfg outcome).rotations = 0 ∧
    (sendStreamRequestRaw cfg outcome).httpAttempts ≤ 1 ∧
    (∀ msg, outcome = .transportError msg →
      sendStreamRequestRaw cfg outcome =
        StreamSendOutcome.mk 1 0 (.error ("stream request failed: " ++ msg))) ∧
    (∀ status body, outcome = .http status body → ¬ status = 200 →
      sendStreamRequestRaw cfg outcome =
        StreamSendOutcome.mk 1 0 (.error ("stream API request failed with status " ++
          toString status ++ ": " ++ body))) ∧
    (∀ body, outcome = .http 200 body →
      sendStreamRequestRaw cfg outcome = StreamSendOutcome.mk 1 0 (.ok (200, body))) := by
  refine ⟨?_, ?_, ?_, ?_, ?_, ?_⟩
  · cases outcome <;> rfl
  · cases outcome with
    | createError msg => rfl
    | transportError msg => rfl
    | http status body =>
      by_cases h : status = 200
      · simp [sendStreamRequestRaw, h]
      · simp [sendStreamRequestRaw, h]
  · cases outcome with
    | createError msg => simp [sendStreamRequestRaw]
    | transportError msg => simp [sendStreamRequestRaw]
    | http status body =>
      by_cases h : status = 200
      · simp [sendStreamRequestRaw, h]
      · simp [sendStreamRequestRaw, h]
  · intro msg hmsg
    subst hmsg
    rfl
  · intro status body hsb h200
    subst hsb
    simp [sendStreamRequestRaw, h200]
  · intro body hb
    subst hb
    rfl

/-- C10 witness: concrete outcomes under two different configurations. -/
theorem stream_raw_single_attempt_witness :
    sendStreamRequestRaw (ClientConfig.mk 5 9) (.transportError "connection refused") =
      StreamSendOutcome.mk 1 0 (.error ("stream request failed: " ++ "connection refused")) ∧
    sendStreamRequestRaw (ClientConfig.mk 5 9) (.http 503 "overloaded") =
      StreamSendOutcome.mk 1 0 (.error ("stream API request failed with status " ++
        toString 503 ++ ": " ++ "overloaded")) ∧
    sendStreamRequestRaw (ClientConfig.mk 5 9) (.http 200 "chunks") =
      sendStreamRequestRaw (ClientConfig.mk 0 1) (.http 200 "chunks") :=
  ⟨((stream_raw_single_attempt (ClientConfig.mk 5 9) (ClientConfig.mk 0 1)
      (.transportError "connection refused")).2.2.2.1 "connection refused" rfl),
   ((stream_raw_single_attempt (ClientConfig.mk 5 9) (ClientConfig.mk 0 1)
      (.http 503 "overloaded")).2.2.2.2.1 503 "overloaded" rfl (by decide)),
   (stream_raw_single_attempt (ClientConfig.mk 5 9) (ClientConfig.mk 0 1)
      (.http 200 "chunks")).1⟩

/-! ## Claim C2 — OAuth callback contract -/

/-- C2 counterexample: the claim's final conjunct — that every branch's body
is a JSON status payload — fails on the bad-path branch, which Go writes via
`http.Error` as plain text (and the 204 branch writes no body at all). -/
theorem callback_body_counterexample :
    (handleOAuthCallback
      (AuthState.mk [] none none false "/oauth/callback/681255809395")
      "/wrong" "" "" (.error "boom")).statusCode = 400 ∧
    RespBody.isJsonPayload (handleOAuthCallback
      (AuthState.mk [] none none false "/oauth/callback/681255809395")
      "/wrong" "" "" (.error "boom")).body = false ∧
    RespBody.isJsonPayload (handleOAuthCallback
      (AuthState.mk [] none none false "/oauth/callback/681255809395")
      "/oauth/callback/681255809395" "" "" (.error "boom")).body = false := by
  refine ⟨by decide, by decide, by decide⟩

/-- C2 (amended): the callback handler's branch behavior — bad path → 400
with a plain-text body (not JSON) and no state change; provider error → 400
with a JSON status payload carrying the error value, state unchanged; no code
→ 204 with empty body; exchange failure → 500 with a JSON payload and no
state change; success → 200 with a JSON payload, the token stored and the
auth-complete signal raised.  JSON `{status, message, ...}` bodies appear on
exactly the provider-error, exchange-failure and success branches. -/
theorem callback_contract (g : AuthState) (reqPath code errorParam : String)
    (exchange : Except String OAuthToken) :
    (¬ reqPath = g.callbackPath →
      handleOAuthCallback g reqPath code errorParam exchange =
        CallbackResponse.mk 400
          (.plainText ("Invalid callback path: " ++ reqPath ++ ", expected: " ++
            g.callbackPath ++ "\n"))
          g.currentTokens false) ∧
    (reqPath = g.callbackPath → ¬ errorParam = "" →
      handleOAuthCallback g reqPath code errorParam exchange =
        CallbackResponse.mk 400
          (.jsonPayload "error" (some errorParam)
            "OAuth authorization failed. Please try the authorization process again.")
          g.currentTokens false) ∧
    (reqPath = g.callbackPath → errorParam = "" → code = "" →
      handleOAuthCallback g reqPath code errorParam exchange =
        CallbackResponse.mk 204 .noBody g.currentTokens false) ∧
    (∀ e, reqPath = g.callbackPath → errorParam = "" → ¬ code = "" →
      exchange = .error e →
      handleOAuthCallback g reqPath code errorParam exchange =
        CallbackResponse.mk 500
          (.jsonPayload "error" (some e)
            "Token exchange failed. Please contact support if this problem persists.")
          g.currentTokens false) ∧
    (∀ token, reqPath = g.callbackPath → errorParam = "" → ¬ code = "" →
      exchange = .ok token →
      handleOAuthCallback g reqPath code errorParam exchange =
        CallbackResponse.mk 200
          (.jsonPayload "success" none "OAuth authentication successful")
          (some token) true) := by
  refine ⟨?_, ?_, ?_, ?_, ?_⟩
  · intro hpath
    simp [handleOAuthCallback, hpath]
  · intro hpath herr
    simp [handleOAuthCallback, hpath, herr]
  · intro hpath herr hcode
    simp [handleOAuthCallback, hpath, herr, hcode]
  · intro e hpath herr hcode hex
    subst hex
    simp [handleOAuthCallback, hpath, herr, hcode]
  · intro token hpath herr hcode hex
    subst hex
    simp [handleOAuthCallback, hpath, herr, hcode]

/-- C2 witness: the `?error=access_denied` scenario — HTTP 400, a JSON body
carrying `access_denied`, state still unauthorized — plus the 204 poll and a
successful exchange. -/
theorem callback_contract_witness :
    handleOAuthCallback
        (AuthState.mk [] none none false "/oauth/callback/681255809395")
        "/oauth/callback/681255809395" "" "access_denied" (.error "unused") =
      CallbackResponse.mk 400
        (.jsonPayload "error" (some "access_denied")
          "OAuth authorization failed. Please try the authorization process again.")
        none false ∧
    handleOAuthCallback
        (AuthState.mk [] none none false "/oauth/callback/681255809395")
        "/oauth/callback/681255809395" "" "" (.error "unused") =
      CallbackResponse.mk 204 .noBody none false ∧
    handleOAuthCallback
        (AuthState.mk [] none none false "/oauth/callback/681255809395")
        "/oauth/callback/681255809395" "authcode" ""
        (.ok (OAuthToken.mk "at" "rt")) =
      CallbackResponse.mk 200
        (.jsonPayload "success" none "OAuth authentication successful")
        (some (OAuthToken.mk "at" "rt")) true :=
  ⟨(callback_contract (AuthState.mk [] none none false "/oauth/callback/681255809395")
      "/oauth/callback/681255809395" "" "access_denied" (.error "unused")).2.1
      rfl (by decide),
   (callback_contract (AuthState.mk [] none none false "/oauth/callback/681255809395")
      "/oauth/callback/681255809395" "" "" (.error "unused")).2.2.1 rfl rfl rfl,
   (callback_contract (AuthState.mk [] none none false "/oauth/callback/681255809395")
      "/oauth/callback/681255809395" "authcode" "" (.ok (OAuthToken.mk "at" "rt"))).2.2.2.2
      (OAuthToken.mk "at" "rt") rfl rfl (by decide) rfl⟩

/-! ## Claim C4 — Initialize adopts the first valid persisted token -/

/-- A leading block of tokens that all fail to load is skipped. -/
lemma firstValidToken_skip (decode : String → Option OAuthToken) :
    ∀ pre rest, (∀ p ∈ pre, tokenLoads decode p = none) →
      firstValidToken decode (pre ++ rest) = firstValidToken decode rest := by
  intro pre
  induction pre with
  | nil => intro rest _; rfl
  | cons p0 pre ih =>
    intro rest h
    have h0 : tokenLoads decode p0 = none := h p0 (by simp)
    have hrest : ∀ p ∈ pre, tokenLoads decode p = none := fun p hp => h p (by simp [hp])
    rw [List.cons_append]
    unfold tokenLoads at h0
    rcases hload : loadTokenFromBase64 decode p0 with e | t
    · calc firstValidToken decode (p0 :: (pre ++ rest))
          = firstValidToken decode (pre ++ rest) := by
            simp only [firstValidToken, hload]
        _ = firstValidToken decode rest := ih rest hrest
    · rw [hload] at h0
      simp at h0

/-- A token that loads is adopted on the spot. -/
lemma firstValidToken_cons_valid (decode : String → Option OAuthToken) (s : String)
    (rest : List String) (token : OAuthToken)
    (h : tokenLoads decode s = some token) :
    firstValidToken decode (s :: rest) = some token := by
  unfold firstValidToken
  unfold tokenLoads at h
  rcases hload : loadTokenFromBase64 decode s with e | t
  · rw [hload] at h
    simp at h
  · rw [hload] at h
    simp at h
    rw [h]

/-- C4: `Initialize` decodes and parses the persisted tokens in list order
and adopts the first structurally valid one, transitioning to an initialized
state whose token source is built from that token; with none valid it leaves
the state unauthorized and returns the fixed authorization-required condition
(whose text carries the `authentication required` marker the repository's own
test distinguishes it by). -/
theorem initialize_adopts_first_valid (decode : String → Option OAuthToken)
    (g : AuthState) (hinit : g.initialized = false) (hcur : g.currentTokens = none) :
    (∀ pre s post token, g.tokens = pre ++ s :: post →
      (∀ p ∈ pre, tokenLoads decode p = none) → tokenLoads decode s = some token →
      initializeAuth decode g =
        ({ g with currentTokens := some token, tokenSource := some token,
                  initialized := true }, .ok ())) ∧
    ((∀ s ∈ g.tokens, tokenLoads decode s = none) →
      initializeAuth decode g =
        (g, .error "OAuth2 authentication required, please call StartOAuthFlow") ∧
      (initializeAuth decode g).1.initialized = false ∧
      (initializeAuth decode g).1.currentTokens = none ∧
      strContains "OAuth2 authentication required, please call StartOAuthFlow"
        "authentication required" = true) := by
  constructor
  · intro pre s post token htokens hpre hs
    have hfirst : firstValidToken decode g.tokens = some token := by
      rw [htokens, firstValidToken_skip decode pre (s :: post) hpre,
          firstValidToken_cons_valid decode s post token hs]
    unfold initializeAuth
    rw [if_neg (by rw [hinit]; exact Bool.false_ne_true), hfirst]
  · intro hall
    have hfirst : firstValidToken decode g.tokens = none := by
      have := firstValidToken_skip decode g.tokens [] hall
      rw [List.append_nil] at this
      rw [this]
      rfl
    have hres : initializeAuth decode g =
        (g, .error "OAuth2 authentication required, please call StartOAuthFlow") := by
      unfold initializeAuth
      rw [if_neg (by rw [hinit]; exact Bool.false_ne_true), hfirst, hcur]
    exact ⟨hres, by rw [hres]; exact hinit, by rw [hres]; exact hcur, by decide⟩

/-- C4 witness: with an undecodable first entry and a valid second entry the
manager adopts the second token; with no valid entries it stays unauthorized
and reports the authorization-required condition. -/
theorem initialize_adopts_first_valid_witness :
    initializeAuth
        (fun s => if s = "good" then some (OAuthToken.mk "at" "rt") else none)
        (AuthState.mk ["bad", "good"] none none false "/cb") =
      (AuthState.mk ["bad", "good"] (some (OAuthToken.mk "at" "rt"))
        (some (OAuthToken.mk "at" "rt")) true "/cb", .ok ()) ∧
    initializeAuth
        (fun s => if s = "good" then some (OAuthToken.mk "at" "rt") else none)
        (AuthState.mk ["bad"] none none false "/cb") =
      (AuthState.mk ["bad"] none none false "/cb",
        .error "OAuth2 authentication required, please call StartOAuthFlow") := by
  constructor
  · exact (initialize_adopts_first_valid
      (fun s => if s = "good" then some (OAuthToken.mk "at" "rt") else none)
      (AuthState.mk ["bad", "good"] none none false "/cb") rfl rfl).1
      ["bad"] "good" [] (OAuthToken.mk "at" "rt") rfl
      (by
        intro p hp
        simp at hp
        subst hp
        rfl)
      rfl
  · exact ((initialize_adopts_first_valid
      (fun s => if s = "good" then some (OAuthToken.mk "at" "rt") else none)
      (AuthState.mk ["bad"] none none false "/cb") rfl rfl).2
      (by
        intro s hs
        simp at hs
        subst hs
        rfl)).1

/-! ## Claim C6 — onboarding loop -/

/-- Incomplete onboarding calls are consumed one by one, each adding one call
and two seconds of backoff. -/
lemma onboardLoop_skip (call : Nat → OnboardCall) :
    ∀ j rem i slept, j ≤ rem →
      (∀ k, k < j → callOnboardAPI (call (i + k)) = .ok "") →
      onboardLoop call rem i slept = onboardLoop call (rem - j) (i + j) (slept + 2 * j) := by
  intro j
  induction j with
  | zero => intro rem i slept _ _; simp
  | succ n ih =>
    intro rem i slept hle hok
    rcases rem with _ | r
    · omega
    · have h0 : callOnboardAPI (call i) = .ok "" := by
        have := hok 0 (by omega)
        simpa using this
      have hstep : onboardLoop call (r + 1) i slept =
          onboardLoop call r (i + 1) (slept + 2) := by
        simp only [onboardLoop, h0]
        rw [if_neg (by simp)]
      rw [hstep, ih r (i + 1) (slept + 2) (by omega)
        (fun k hk => by
          have := hok (k + 1) (by omega)
          rw [show i + (k + 1) = i + 1 + k by omega] at this
          exact this)]
      congr 1 <;> omega

/-- C6: the onboarding loop makes at most 10 calls; nine incomplete responses
followed by a completed response carrying a non-empty id on the tenth call
return that id after 18 seconds of backoff; more generally the first
completed call with a non-empty id ends the loop, any non-200 status aborts
it immediately with the status error, and ten incomplete calls exhaust it
with the timeout error. -/
theorem onboarding_loop_behavior (call : Nat → OnboardCall) :
    (onboardUser call).calls ≤ 10 ∧
    ((∀ i, i < 9 → callOnboardAPI (call i) = .ok "") →
      call 9 = .response 200 (OnboardBody.mk true "123456789012") →
      onboardUser call = OnboardResult.mk 10 18 (.ok "123456789012")) ∧
    (∀ j id, j < 10 → (∀ i, i < j → callOnboardAPI (call i) = .ok "") →
      callOnboardAPI (call j) = .ok id → ¬ id = "" →
      onboardUser call = OnboardResult.mk (j + 1) (2 * j) (.ok id)) ∧
    (∀ j s b, j < 10 → (∀ i, i < j → callOnboardAPI (call i) = .ok "") →
      call j = .response s b → ¬ s = 200 →
      onboardUser call = OnboardResult.mk (j + 1) (2 * j)
        (.error ("onboard API returned status " ++ toString s))) ∧
    ((∀ i, i < 10 → callOnboardAPI (call i) = .ok "") →
      onboardUser call = OnboardResult.mk 10 20 (.error "onboarding process timed out")) := by
  have hcalls : ∀ rem i slept, (onboardLoop call rem i slept).calls ≤ i + rem := by
    intro rem
    induction rem with
    | zero => intro i slept; simp [onboardLoop]
    | succ r ih =>
      intro i slept
      rcases h : callOnboardAPI (call i) with e | pid
      · simp [onboardLoop, h]
      · by_cases hp : pid = ""
        · have hstep : onboardLoop call (r + 1) i slept =
              onboardLoop call r (i + 1) (slept + 2) := by
            simp only [onboardLoop, h]
            rw [if_neg (by simp [hp])]
          rw [hstep]
          have := ih (i + 1) (slept + 2)
          omega
        · have hstep : onboardLoop call (r + 1) i slept =
              OnboardResult.mk (i + 1) slept (.ok pid) := by
            simp only [onboardLoop, h]
            rw [if_pos (by simp [hp])]
          rw [hstep]
          simp
  have hfirst : ∀ j id, j < 10 → (∀ i, i < j → callOnboardAPI (call i) = .ok "") →
      callOnboardAPI (call j) = .ok id → ¬ id = "" →
      onboardUser call = OnboardResult.mk (j + 1) (2 * j) (.ok id) := by
    intro j id hj hok hid hne
    unfold onboardUser
    rw [onboardLoop_skip call j 10 0 0 (by omega) (fun k hk => by
      have := hok k hk
      simpa using this)]
    have h10 : 10 - j = (10 - j - 1) + 1 := by omega
    rw [h10]
    simp only [onboardLoop, Nat.zero_add, hid]
    rw [if_pos (by simp [hne])]
  refine ⟨?_, ?_, hfirst, ?_, ?_⟩
  · have := hcalls 10 0 0
    unfold onboardUser
    omega
  · intro hnine h9
    have h := hfirst 9 "123456789012" (by omega) hnine
      (by rw [h9]; rfl) (by decide)
    simpa using h
  · intro j s b hj hok hjs h200
    unfold onboardUser
    rw [onboardLoop_skip call j 10 0 0 (by omega) (fun k hk => by
      have := hok k hk
      simpa using this)]
    have h10 : 10 - j = (10 - j - 1) + 1 := by omega
    rw [h10]
    have herr : callOnboardAPI (call j) =
        .error ("onboard API returned status " ++ toString s) := by
      rw [hjs]
      simp only [callOnboardAPI]
      rw [if_pos h200]
    simp only [onboardLoop, Nat.zero_add, herr]
  · intro hall
    unfold onboardUser
    rw [onboardLoop_skip call 10 10 0 0 (by omega) (fun k hk => by
      have := hall k hk
      simpa using this)]
    rfl

/-- C6 witness: nine `done:false` responses then a completed response with
project id `123456789012` on the tenth call return that id after 18 seconds
of backoff. -/
theorem onboarding_loop_behavior_witness :
    onboardUser (fun i => if i < 9 then .response 200 (OnboardBody.mk false "")
        else .response 200 (OnboardBody.mk true "123456789012")) =
      OnboardResult.mk 10 18 (.ok "123456789012") :=
  (onboarding_loop_behavior (fun i => if i < 9 then .response 200 (OnboardBody.mk false "")
      else .response 200 (OnboardBody.mk true "123456789012"))).2.1
    (by
      intro i hi
      show callOnboardAPI (if i < 9 then .response 200 (OnboardBody.mk false "")
        else .response 200 (OnboardBody.mk true "123456789012")) = .ok ""
      rw [if_pos hi]
      rfl)
    (by
      show (if (9:Nat) < 9 then OnboardCall.response 200 (OnboardBody.mk false "")
        else .response 200 (OnboardBody.mk true "123456789012")) =
        .response 200 (OnboardBody.mk true "123456789012")
      rw [if_neg (by omega)])

end GProxy
